import Mathlib

set_option autoImplicit false

/-!
Shallow embedding of `src/common/include/ReconstructionHypothesisDiscriminators.h`
(UHH2 hypothesis-scoring and selection engine).

Conventions of the embedding:
* C++ `float` scores are modelled as exact rationals; the "+infinity" sentinel
  used by the discriminators is modelled with `WithTop ℚ` (`⊤` = +infinity).
* A C++ member function that can `throw` is modelled as returning a pair of the
  new object state and an `Option String` holding the thrown message (`none` =
  no exception).
* The angular distance ΔR (a Euclidean distance in azimuth–pseudorapidity
  space, hence involving a square root) is abstracted as a parameter
  `dr : GenParticle → GenParticle → ℚ` of the truth-match scorer; all
  properties proved about that scorer hold for every distance function.
* Only the header of the repository sample is available; inline member function
  bodies (the setters of `Chi2Discriminator` and `Chi2DiscriminatorTTAG`) are
  translated from that source, while the out-of-line implementations
  (`get_best_hypothesis`, the `process` methods) are modelled from the spec, as
  flagged in each doc comment.
-/

/-- Modelled from the spec: a direction in azimuth–pseudorapidity space.  The
four-momentum classes (`ReconstructionHypothesis.h`, `TTbarGen.h`) are not part
of the sample; only the directional information consulted by the truth-match
scorer is kept. -/
structure GenParticle where
  eta : ℚ
  phi : ℚ
deriving DecidableEq

/-- Modelled from the spec (§3 HypothesisRecord): one candidate reconstruction
together with its accumulated discriminator scores.  The header
`ReconstructionHypothesis.h` is not part of the sample; the reconstructed
momenta are abstracted to the quantities the scorers consult: the leptonic-top
and hadronic-top invariant masses, the reconstructed lepton and neutrino
directions, and the jets used by the hypothesis.  The score map is an ordered
association list from label to score, unset labels reading as +infinity. -/
structure ReconstructionHypothesis where
  toplep_mass : ℚ
  tophad_mass : ℚ
  lepton : GenParticle
  neutrino : GenParticle
  jets : List GenParticle
  discriminators : List (String × WithTop ℚ)
deriving DecidableEq

/-- Modelled from the spec (§3): reading a discriminator label from the score
map; a label never written reads as +infinity ("scores default to unset,
treated as +infinity"). -/
def lookup_disc : List (String × WithTop ℚ) → String → WithTop ℚ
  | [], _ => ⊤
  | p :: ps, label => if p.1 = label then p.2 else lookup_disc ps label

/-- Modelled from the spec (§3): insertion/overwrite of a labelled score
(writing an existing label replaces its value in place; a new label is
appended). -/
def upsert_disc : List (String × WithTop ℚ) → String → WithTop ℚ → List (String × WithTop ℚ)
  | [], label, v => [(label, v)]
  | p :: ps, label, v =>
      if p.1 = label then (label, v) :: ps else p :: upsert_disc ps label v

def ReconstructionHypothesis.get_discriminator (h : ReconstructionHypothesis)
    (label : String) : WithTop ℚ :=
  lookup_disc h.discriminators label

def ReconstructionHypothesis.set_discriminator (h : ReconstructionHypothesis)
    (label : String) (v : WithTop ℚ) : ReconstructionHypothesis :=
  ⟨h.toplep_mass, h.tophad_mass, h.lepton, h.neutrino, h.jets,
    upsert_disc h.discriminators label v⟩

/-- Modelled from the spec (§4.5, and the header doc at
`ReconstructionHypothesisDiscriminators.h:21-28`; the defining `.cxx` is not in
the sample): the stable minimum scan underlying `get_best_hypothesis`.  It
carries the best record seen so far and replaces it only on a strictly smaller
score, so on exact ties the earlier record wins. -/
def scan_best (label : String) :
    ReconstructionHypothesis → List ReconstructionHypothesis → ReconstructionHypothesis
  | best, [] => best
  | best, h :: t =>
      if h.get_discriminator label < best.get_discriminator label then
        scan_best label h t
      else
        scan_best label best t

/-- Modelled from the spec (§4.5 BestHypothesisSelector; the defining `.cxx`
is not in the sample): returns the record with the minimum score under `label`,
or none if the collection is empty or the minimum score found is +infinity. -/
def get_best_hypothesis (hyps : List ReconstructionHypothesis) (label : String) :
    Option ReconstructionHypothesis :=
  match hyps with
  | [] => none
  | h :: t =>
      let best := scan_best label h t
      if best.get_discriminator label = ⊤ then none else some best

/-- Translated from `ReconstructionHypothesisDiscriminators.h:43-78`
(`class Chi2Discriminator`): the configuration label (`cfg`, default "Chi2")
and the four Gaussian mass-constraint parameters. -/
structure Chi2Discriminator where
  discriminator_label : String
  Mtlep_mean_ : ℚ
  Mtlep_sigma_ : ℚ
  Mthad_mean_ : ℚ
  Mthad_sigma_ : ℚ
deriving DecidableEq

/-- Header line 55: `set_Mtlep_mean` stores the value; its body cannot throw. -/
def Chi2Discriminator.set_Mtlep_mean (d : Chi2Discriminator) (m : ℚ) :
    Chi2Discriminator × Option String :=
  (⟨d.discriminator_label, m, d.Mtlep_sigma_, d.Mthad_mean_, d.Mthad_sigma_⟩, none)

/-- Header lines 56-59: `set_Mtlep_sigma` first stores the value, then throws a
runtime error if it is non-positive. -/
def Chi2Discriminator.set_Mtlep_sigma (d : Chi2Discriminator) (s : ℚ) :
    Chi2Discriminator × Option String :=
  let d1 : Chi2Discriminator :=
    ⟨d.discriminator_label, d.Mtlep_mean_, s, d.Mthad_mean_, d.Mthad_sigma_⟩
  if s ≤ 0 then
    (d1, some ("Chi2Discriminator::set_Mtlep_sigma -- logic error: non-positive input value: " ++ toString s))
  else
    (d1, none)

/-- Header line 61: `set_Mthad_mean` stores the value; its body cannot throw. -/
def Chi2Discriminator.set_Mthad_mean (d : Chi2Discriminator) (m : ℚ) :
    Chi2Discriminator × Option String :=
  (⟨d.discriminator_label, d.Mtlep_mean_, d.Mtlep_sigma_, m, d.Mthad_sigma_⟩, none)

/-- Header lines 62-65: `set_Mthad_sigma` first stores the value, then throws a
runtime error if it is non-positive. -/
def Chi2Discriminator.set_Mthad_sigma (d : Chi2Discriminator) (s : ℚ) :
    Chi2Discriminator × Option String :=
  let d1 : Chi2Discriminator :=
    ⟨d.discriminator_label, d.Mtlep_mean_, d.Mtlep_sigma_, d.Mthad_mean_, s⟩
  if s ≤ 0 then
    (d1, some ("Chi2Discriminator::set_Mthad_sigma -- logic error: non-positive input value: " ++ toString s))
  else
    (d1, none)

/-- Modelled from the spec (§4.1 MassConstraintScorer; the defining `.cxx` is
not in the sample): per-hypothesis chi-square scoring.  Writes the three scores
label, label_tlep and label_thad with
chi2_tlep = ((Mtlep - Mtlep_mean) / Mtlep_sigma)^2,
chi2_thad = ((Mthad - Mthad_mean) / Mthad_sigma)^2 and
chi2_total = chi2_tlep + chi2_thad. -/
def Chi2Discriminator.process_hyp (d : Chi2Discriminator)
    (h : ReconstructionHypothesis) : ReconstructionHypothesis :=
  let chi2_tlep : ℚ := ((h.toplep_mass - d.Mtlep_mean_) / d.Mtlep_sigma_) ^ 2
  let chi2_thad : ℚ := ((h.tophad_mass - d.Mthad_mean_) / d.Mthad_sigma_) ^ 2
  let chi2_total : ℚ := chi2_tlep + chi2_thad
  ((h.set_discriminator d.discriminator_label (↑chi2_total)).set_discriminator
      (d.discriminator_label ++ "_tlep") (↑chi2_tlep)).set_discriminator
    (d.discriminator_label ++ "_thad") (↑chi2_thad)

/-- Modelled from the spec (§4.1, §6): the per-event invocation mutates every
hypothesis in the named collection. -/
def Chi2Discriminator.process (d : Chi2Discriminator)
    (hyps : List ReconstructionHypothesis) : List ReconstructionHypothesis :=
  hyps.map d.process_hyp

/-- Translated from `ReconstructionHypothesisDiscriminators.h:87-127`
(`class Chi2DiscriminatorTTAG`): same parameters as `Chi2Discriminator` plus
the subjet-mass mode flag. -/
structure Chi2DiscriminatorTTAG where
  discriminator_label : String
  Mtlep_mean_ : ℚ
  Mtlep_sigma_ : ℚ
  Mthad_mean_ : ℚ
  Mthad_sigma_ : ℚ
  use_subjet_mass_ : Bool
deriving DecidableEq

/-- Header line 99: the TTAG `set_Mtlep_mean` stores the value; cannot throw. -/
def Chi2DiscriminatorTTAG.set_Mtlep_mean (d : Chi2DiscriminatorTTAG) (m : ℚ) :
    Chi2DiscriminatorTTAG × Option String :=
  (⟨d.discriminator_label, m, d.Mtlep_sigma_, d.Mthad_mean_, d.Mthad_sigma_,
     d.use_subjet_mass_⟩, none)

/-- Header lines 100-103: the TTAG `set_Mtlep_sigma` stores the value and then
throws on a non-positive input; the message names `Chi2Discriminator`, not
`Chi2DiscriminatorTTAG`. -/
def Chi2DiscriminatorTTAG.set_Mtlep_sigma (d : Chi2DiscriminatorTTAG) (s : ℚ) :
    Chi2DiscriminatorTTAG × Option String :=
  let d1 : Chi2DiscriminatorTTAG :=
    ⟨d.discriminator_label, d.Mtlep_mean_, s, d.Mthad_mean_, d.Mthad_sigma_,
      d.use_subjet_mass_⟩
  if s ≤ 0 then
    (d1, some ("Chi2Discriminator::set_Mtlep_sigma -- logic error: non-positive input value: " ++ toString s))
  else
    (d1, none)

/-- Header line 105: the TTAG `set_Mthad_mean` stores the value; cannot throw. -/
def Chi2DiscriminatorTTAG.set_Mthad_mean (d : Chi2DiscriminatorTTAG) (m : ℚ) :
    Chi2DiscriminatorTTAG × Option String :=
  (⟨d.discriminator_label, d.Mtlep_mean_, d.Mtlep_sigma_, m, d.Mthad_sigma_,
     d.use_subjet_mass_⟩, none)

/-- Header lines 106-109: the TTAG `set_Mthad_sigma` stores the value and then
throws on a non-positive input; the message names `Chi2Discriminator`, not
`Chi2DiscriminatorTTAG`. -/
def Chi2DiscriminatorTTAG.set_Mthad_sigma (d : Chi2DiscriminatorTTAG) (s : ℚ) :
    Chi2DiscriminatorTTAG × Option String :=
  let d1 : Chi2DiscriminatorTTAG :=
    ⟨d.discriminator_label, d.Mtlep_mean_, d.Mtlep_sigma_, d.Mthad_mean_, s,
      d.use_subjet_mass_⟩
  if s ≤ 0 then
    (d1, some ("Chi2Discriminator::set_Mthad_sigma -- logic error: non-positive input value: " ++ toString s))
  else
    (d1, none)

/-- Modelled from the spec (glossary, `TTbarGen.h` not in the sample): the
generator-level decay channel of the ttbar pair; only electron+jets and
muon+jets are treated by the truth-match scorer. -/
inductive DecayChannel where
  | e_ehad
  | e_muhad
  | e_tauhad
  | e_had
  | e_dilepton
  | e_notfound
deriving DecidableEq

/-- Modelled from the spec (§3 TruthRecord; `TTbarGen.h` is not in the sample):
the decay channel, the four matrix-element final-state partons (b, anti-b, and
the two light quarks of the hadronic W), and the true neutrino. -/
structure TTbarGen where
  channel : DecayChannel
  bottom : GenParticle
  antibottom : GenParticle
  Wquark1 : GenParticle
  Wquark2 : GenParticle
  neutrino : GenParticle
deriving DecidableEq

/-- Modelled from the spec (§4.4): the minimal angular distance from parton `p`
to the jets of a hypothesis, with the earlier jet winning exact ties; `none`
when the hypothesis uses no jets. -/
def min_deltaR (dr : GenParticle → GenParticle → ℚ) (p : GenParticle) :
    List GenParticle → Option ℚ
  | [] => none
  | j :: js =>
      match min_deltaR dr p js with
      | none => some (dr p j)
      | some m => if dr p j ≤ m then some (dr p j) else some m

/-- Modelled from the spec (§4.4 step 1): the distance to the closest jet when
that distance is below the 0.3 matching cutoff, `none` otherwise. -/
def match_parton (dr : GenParticle → GenParticle → ℚ)
    (jets : List GenParticle) (p : GenParticle) : Option ℚ :=
  match min_deltaR dr p jets with
  | none => none
  | some m => if m < 3 / 10 then some m else none

def semileptonic : DecayChannel → Bool
  | DecayChannel.e_ehad => true
  | DecayChannel.e_muhad => true
  | _ => false

/-- Modelled from the spec (§4.4 steps 1-3): the truth-match score of one
hypothesis — the sum of the four parton-jet match distances plus the
(uncut) distance between true and reconstructed neutrino, or +infinity as soon
as one of the four partons has no jet within the cutoff. -/
def correct_match_score (dr : GenParticle → GenParticle → ℚ) (gen : TTbarGen)
    (h : ReconstructionHypothesis) : WithTop ℚ :=
  match match_parton dr h.jets gen.bottom, match_parton dr h.jets gen.antibottom,
      match_parton dr h.jets gen.Wquark1, match_parton dr h.jets gen.Wquark2 with
  | some d1, some d2, some d3, some d4 =>
      ↑(d1 + d2 + d3 + d4 + dr gen.neutrino h.neutrino)
  | _, _, _, _ => ⊤

/-- Modelled from the spec (§4.4 CorrectMatchDiscriminator; the defining `.cxx`
is not in the sample): on a non-semileptonic truth channel every hypothesis
receives +infinity and no matching is attempted; otherwise each hypothesis
receives its truth-match score under `label` (default "CorrectMatch"). -/
def CorrectMatchDiscriminator.process (dr : GenParticle → GenParticle → ℚ)
    (gen : TTbarGen) (label : String) (hyps : List ReconstructionHypothesis) :
    List ReconstructionHypothesis :=
  if semileptonic gen.channel then
    hyps.map (fun h => h.set_discriminator label (correct_match_score dr gen h))
  else
    hyps.map (fun h => h.set_discriminator label ⊤)

/-- A concrete squared angular distance, used to instantiate the abstract
distance parameter on concrete inputs. -/
def deltaR_sq (a b : GenParticle) : ℚ :=
  (a.eta - b.eta) ^ 2 + (a.phi - b.phi) ^ 2

/-! ### Lemmas about the score map -/

theorem lookup_upsert_self (l : List (String × WithTop ℚ)) (label : String)
    (v : WithTop ℚ) : lookup_disc (upsert_disc l label v) label = v := by
  induction l with
  | nil => simp [upsert_disc, lookup_disc]
  | cons p ps ih =>
      by_cases hp : p.1 = label
      · simp [upsert_disc, hp, lookup_disc]
      · simp [upsert_disc, hp, lookup_disc, ih]

theorem lookup_upsert_of_ne (l : List (String × WithTop ℚ)) (label l2 : String)
    (v : WithTop ℚ) (hne : l2 ≠ label) :
    lookup_disc (upsert_disc l label v) l2 = lookup_disc l l2 := by
  induction l with
  | nil => simp [upsert_disc, lookup_disc, Ne.symm hne]
  | cons p ps ih =>
      by_cases hp : p.1 = label
      · simp [upsert_disc, hp, lookup_disc, Ne.symm hne]
      · simp [upsert_disc, hp, lookup_disc, ih]

theorem get_set_self (h : ReconstructionHypothesis) (label : String)
    (v : WithTop ℚ) :
    (h.set_discriminator label v).get_discriminator label = v :=
  lookup_upsert_self h.discriminators label v

theorem get_set_of_ne (h : ReconstructionHypothesis) (label l2 : String)
    (v : WithTop ℚ) (hne : l2 ≠ label) :
    (h.set_discriminator label v).get_discriminator l2 = h.get_discriminator l2 :=
  lookup_upsert_of_ne h.discriminators label l2 v hne

/-! ### Lemmas about strings (distinctness of the written labels) -/

theorem string_append_right_inj (s : String) {t u : String}
    (h : s ++ t = s ++ u) : t = u := by
  have hd := congrArg String.data h
  rw [String.data_append, String.data_append] at hd
  exact String.ext (List.append_cancel_left hd)

theorem string_ne_append (s t : String) (ht : t ≠ "") : s ≠ s ++ t := by
  intro he
  apply ht
  have hd := congrArg String.data he
  rw [String.data_append] at hd
  have h2 : s.data ++ ([] : List Char) = s.data ++ t.data := by
    simpa using hd
  exact String.ext (List.append_cancel_left h2).symm

/-! ### Lemmas about the stable minimum scan -/

theorem scan_best_le_start (label : String) (t : List ReconstructionHypothesis) :
    ∀ best, (scan_best label best t).get_discriminator label ≤
      best.get_discriminator label := by
  induction t with
  | nil => intro best; exact le_refl _
  | cons h t ih =>
      intro best
      unfold scan_best
      by_cases hlt : h.get_discriminator label < best.get_discriminator label
      · rw [if_pos hlt]
        exact le_trans (ih h) (le_of_lt hlt)
      · rw [if_neg hlt]
        exact ih best

theorem scan_best_le_mem (label : String) (t : List ReconstructionHypothesis) :
    ∀ best x, x ∈ t → (scan_best label best t).get_discriminator label ≤
      x.get_discriminator label := by
  induction t with
  | nil => intro best x hx; exact absurd hx (List.not_mem_nil x)
  | cons h t ih =>
      intro best x hx
      unfold scan_best
      rcases List.mem_cons.mp hx with hxh | hxt
      · subst hxh
        by_cases hlt : x.get_discriminator label < best.get_discriminator label
        · rw [if_pos hlt]; exact scan_best_le_start label t x
        · rw [if_neg hlt]
          exact le_trans (scan_best_le_start label t best) (not_lt.mp hlt)
      · by_cases hlt : h.get_discriminator label < best.get_discriminator label
        · rw [if_pos hlt]; exact ih h x hxt
        · rw [if_neg hlt]; exact ih best x hxt

theorem scan_best_split (label : String) (t : List ReconstructionHypothesis) :
    ∀ best, ∃ l1 l2, best :: t = l1 ++ (scan_best label best t) :: l2 ∧
      ∀ p ∈ l1, (scan_best label best t).get_discriminator label <
        p.get_discriminator label := by
  induction t with
  | nil =>
      intro best
      exact ⟨[], [], rfl, by simp⟩
  | cons h t ih =>
      intro best
      unfold scan_best
      by_cases hlt : h.get_discriminator label < best.get_discriminator label
      · rw [if_pos hlt]
        obtain ⟨l1, l2, heq, hstrict⟩ := ih h
        refine ⟨best :: l1, l2, by rw [List.cons_append, ← heq], ?_⟩
        intro p hp
        rcases List.mem_cons.mp hp with hpb | hpl
        · subst hpb
          exact lt_of_le_of_lt (scan_best_le_start label t h) hlt
        · exact hstrict p hpl
      · rw [if_neg hlt]
        obtain ⟨l1, l2, heq, hstrict⟩ := ih best
        cases l1 with
        | nil =>
            have hbest : scan_best label best t = best := by
              have := heq
              simp only [List.nil_append, List.cons.injEq] at this
              exact this.1.symm
            have ht : t = l2 := by
              have := heq
              simp only [List.nil_append, List.cons.injEq] at this
              exact this.2
            refine ⟨[], h :: t, ?_, by simp⟩
            simp [hbest]
        | cons q l1t =>
            have hq : q = best := by
              have := heq
              simp only [List.cons_append, List.cons.injEq] at this
              exact this.1.symm
            have ht : t = l1t ++ (scan_best label best t) :: l2 := by
              have := heq
              simp only [List.cons_append, List.cons.injEq] at this
              exact this.2
            refine ⟨best :: h :: l1t, l2, ?_, ?_⟩
            · rw [List.cons_append, List.cons_append, ← ht]
            · intro p hp
              rcases List.mem_cons.mp hp with hpb | hp2
              · subst hpb
                have : p ∈ q :: l1t := by rw [hq]; exact List.mem_cons_self p l1t
                exact hstrict p this
              · rcases List.mem_cons.mp hp2 with hph | hpl
                · subst hph
                  have hb : (scan_best label best t).get_discriminator label <
                      best.get_discriminator label := by
                    have : best ∈ q :: l1t := by
                      rw [hq]; exact List.mem_cons_self best l1t
                    exact hstrict best this
                  exact lt_of_lt_of_le hb (not_lt.mp hlt)
                · exact hstrict p (List.mem_cons_of_mem q hpl)

theorem scan_best_mem (label : String) (t : List ReconstructionHypothesis)
    (best : ReconstructionHypothesis) : scan_best label best t ∈ best :: t := by
  obtain ⟨l1, l2, heq, _⟩ := scan_best_split label t best
  rw [heq]
  exact List.mem_append_right l1 (List.mem_cons_self _ l2)

/-! ### Lemmas about the nearest-jet matching -/

theorem min_deltaR_eq_none_iff (dr : GenParticle → GenParticle → ℚ)
    (p : GenParticle) (jets : List GenParticle) :
    min_deltaR dr p jets = none ↔ jets = [] := by
  cases jets with
  | nil => simp [min_deltaR]
  | cons j js =>
      simp only [min_deltaR]
      cases min_deltaR dr p js with
      | none => simp
      | some m =>
          by_cases hle : dr p j ≤ m <;> simp [hle]

theorem min_deltaR_mem (dr : GenParticle → GenParticle → ℚ) (p : GenParticle) :
    ∀ (jets : List GenParticle) (m : ℚ), min_deltaR dr p jets = some m →
      ∃ j ∈ jets, dr p j = m := by
  intro jets
  induction jets with
  | nil => intro m hm; exact absurd hm (by simp [min_deltaR])
  | cons j js ih =>
      intro m hm
      cases hjs : min_deltaR dr p js with
      | none =>
          simp only [min_deltaR, hjs] at hm
          exact ⟨j, List.mem_cons_self j js, Option.some.inj hm⟩
      | some m0 =>
          simp only [min_deltaR, hjs] at hm
          by_cases hle : dr p j ≤ m0
          · rw [if_pos hle] at hm
            exact ⟨j, List.mem_cons_self j js, Option.some.inj hm⟩
          · rw [if_neg hle] at hm
            obtain ⟨j2, hj2, he⟩ := ih m0 hjs
            exact ⟨j2, List.mem_cons_of_mem j hj2, he.trans (Option.some.inj hm)⟩

theorem min_deltaR_le (dr : GenParticle → GenParticle → ℚ) (p : GenParticle) :
    ∀ (jets : List GenParticle) (j : GenParticle), j ∈ jets →
      ∀ m : ℚ, min_deltaR dr p jets = some m → m ≤ dr p j := by
  intro jets
  induction jets with
  | nil => intro j hj; exact absurd hj (List.not_mem_nil j)
  | cons j0 js ih =>
      intro j hj m hm
      cases hjs : min_deltaR dr p js with
      | none =>
          have hnil : js = [] := (min_deltaR_eq_none_iff dr p js).mp hjs
          simp only [min_deltaR, hjs] at hm
          have hm2 : m = dr p j0 := (Option.some.inj hm).symm
          rcases List.mem_cons.mp hj with hh | ht
          · subst hh; rw [hm2]
          · rw [hnil] at ht; exact absurd ht (List.not_mem_nil j)
      | some m0 =>
          simp only [min_deltaR, hjs] at hm
          by_cases hle : dr p j0 ≤ m0
          · rw [if_pos hle] at hm
            have hm2 : m = dr p j0 := (Option.some.inj hm).symm
            rcases List.mem_cons.mp hj with hh | ht
            · subst hh; rw [hm2]
            · rw [hm2]; exact le_trans hle (ih j ht m0 hjs)
          · rw [if_neg hle] at hm
            have hm2 : m = m0 := (Option.some.inj hm).symm
            rcases List.mem_cons.mp hj with hh | ht
            · subst hh; rw [hm2]; exact le_of_lt (not_le.mp hle)
            · rw [hm2]; exact ih j ht m0 hjs

theorem match_parton_isSome_iff (dr : GenParticle → GenParticle → ℚ)
    (jets : List GenParticle) (p : GenParticle) :
    (match_parton dr jets p).isSome = true ↔ ∃ j ∈ jets, dr p j < 3 / 10 := by
  constructor
  · intro hs
    cases hm : min_deltaR dr p jets with
    | none =>
        simp only [match_parton, hm, Option.isSome_none] at hs
        exact Bool.noConfusion hs
    | some m =>
        by_cases hlt : m < 3 / 10
        · obtain ⟨j, hj, he⟩ := min_deltaR_mem dr p jets m hm
          exact ⟨j, hj, by rw [he]; exact hlt⟩
        · simp only [match_parton, hm, if_neg hlt, Option.isSome_none] at hs
          exact Bool.noConfusion hs
  · intro hex
    obtain ⟨j, hj, hjlt⟩ := hex
    cases hm : min_deltaR dr p jets with
    | none =>
        have : jets = [] := (min_deltaR_eq_none_iff dr p jets).mp hm
        rw [this] at hj
        exact absurd hj (List.not_mem_nil j)
    | some m =>
        have hle : m ≤ dr p j := min_deltaR_le dr p jets j hj m hm
        simp only [match_parton, hm, if_pos (lt_of_le_of_lt hle hjlt),
          Option.isSome_some]

theorem match_parton_none_of_far (dr : GenParticle → GenParticle → ℚ)
    (jets : List GenParticle) (p : GenParticle)
    (hfar : ∀ j ∈ jets, ¬ dr p j < 3 / 10) : match_parton dr jets p = none := by
  cases hs : match_parton dr jets p with
  | none => rfl
  | some m =>
      have : (match_parton dr jets p).isSome = true := by rw [hs]; rfl
      obtain ⟨j, hj, hjlt⟩ := (match_parton_isSome_iff dr jets p).mp this
      exact absurd hjlt (hfar j hj)

/-! ### Concrete instances for closed checks -/

/-- A hypothesis carrying only the given score map. -/
def mkHyp (ds : List (String × WithTop ℚ)) : ReconstructionHypothesis :=
  ⟨0, 0, ⟨0, 0⟩, ⟨0, 0⟩, [], ds⟩

/-- A concrete chi-square scorer configuration: label "Chi2", leptonic mass
prior 173 ± 15, hadronic mass prior 173 ± 14. -/
def chi2disc0 : Chi2Discriminator := ⟨"Chi2", 173, 15, 173, 14⟩

/-- A concrete top-tagged chi-square scorer configuration with the same
priors. -/
def chi2ttag0 : Chi2DiscriminatorTTAG := ⟨"Chi2", 173, 15, 173, 14, false⟩

/-- Claim C4: for every non-positive width `s`, configuring the chi-square
scorer or its top-tagged variant with `s` throws, for the leptonic width
setter and the hadronic width setter independently. -/
theorem C4_nonpositive_sigma_throws (s : ℚ) (hs : s ≤ 0)
    (d : Chi2Discriminator) (dt : Chi2DiscriminatorTTAG) :
    (d.set_Mtlep_sigma s).2.isSome = true ∧
    (d.set_Mthad_sigma s).2.isSome = true ∧
    (dt.set_Mtlep_sigma s).2.isSome = true ∧
    (dt.set_Mthad_sigma s).2.isSome = true := by
  refine ⟨?_, ?_, ?_, ?_⟩ <;>
    simp [Chi2Discriminator.set_Mtlep_sigma, Chi2Discriminator.set_Mthad_sigma,
      Chi2DiscriminatorTTAG.set_Mtlep_sigma, Chi2DiscriminatorTTAG.set_Mthad_sigma,
      hs]

theorem C4_witness :
    ((-3 : ℚ) ≤ 0) ∧
    ((chi2disc0.set_Mtlep_sigma (-3)).2.isSome = true ∧
     (chi2disc0.set_Mthad_sigma (-3)).2.isSome = true ∧
     (chi2ttag0.set_Mtlep_sigma (-3)).2.isSome = true ∧
     (chi2ttag0.set_Mthad_sigma (-3)).2.isSome = true) :=
  ⟨by norm_num, C4_nonpositive_sigma_throws (-3) (by norm_num) chi2disc0 chi2ttag0⟩

/-- Claim C8: all four width setters store the new value into the member
before validating it, so after a throwing call the stored width equals the
invalid value, not the previous one. -/
theorem C8_sigma_stored_before_validation (s : ℚ) (hs : s ≤ 0)
    (d : Chi2Discriminator) (dt : Chi2DiscriminatorTTAG) :
    ((d.set_Mtlep_sigma s).1.Mtlep_sigma_ = s ∧
      (d.set_Mtlep_sigma s).2.isSome = true) ∧
    ((d.set_Mthad_sigma s).1.Mthad_sigma_ = s ∧
      (d.set_Mthad_sigma s).2.isSome = true) ∧
    ((dt.set_Mtlep_sigma s).1.Mtlep_sigma_ = s ∧
      (dt.set_Mtlep_sigma s).2.isSome = true) ∧
    ((dt.set_Mthad_sigma s).1.Mthad_sigma_ = s ∧
      (dt.set_Mthad_sigma s).2.isSome = true) := by
  refine ⟨⟨?_, ?_⟩, ⟨?_, ?_⟩, ⟨?_, ?_⟩, ⟨?_, ?_⟩⟩ <;>
    simp [Chi2Discriminator.set_Mtlep_sigma, Chi2Discriminator.set_Mthad_sigma,
      Chi2DiscriminatorTTAG.set_Mtlep_sigma, Chi2DiscriminatorTTAG.set_Mthad_sigma,
      hs]

theorem C8_witness :
    ((-2 : ℚ) ≤ 0) ∧
    (((chi2disc0.set_Mtlep_sigma (-2)).1.Mtlep_sigma_ = -2 ∧
       (chi2disc0.set_Mtlep_sigma (-2)).2.isSome = true) ∧
     ((chi2disc0.set_Mthad_sigma (-2)).1.Mthad_sigma_ = -2 ∧
       (chi2disc0.set_Mthad_sigma (-2)).2.isSome = true) ∧
     ((chi2ttag0.set_Mtlep_sigma (-2)).1.Mtlep_sigma_ = -2 ∧
       (chi2ttag0.set_Mtlep_sigma (-2)).2.isSome = true) ∧
     ((chi2ttag0.set_Mthad_sigma (-2)).1.Mthad_sigma_ = -2 ∧
       (chi2ttag0.set_Mthad_sigma (-2)).2.isSome = true)) :=
  ⟨by norm_num, C8_sigma_stored_before_validation (-2) (by norm_num) chi2disc0 chi2ttag0⟩

/-- Claim C9: the four mean setters store any value, including zero and
negative ones, unconditionally and never throw. -/
theorem C9_mean_setters_unvalidated (m : ℚ) (d : Chi2Discriminator)
    (dt : Chi2DiscriminatorTTAG) :
    ((d.set_Mtlep_mean m).1.Mtlep_mean_ = m ∧ (d.set_Mtlep_mean m).2 = none) ∧
    ((d.set_Mthad_mean m).1.Mthad_mean_ = m ∧ (d.set_Mthad_mean m).2 = none) ∧
    ((dt.set_Mtlep_mean m).1.Mtlep_mean_ = m ∧ (dt.set_Mtlep_mean m).2 = none) ∧
    ((dt.set_Mthad_mean m).1.Mthad_mean_ = m ∧ (dt.set_Mthad_mean m).2 = none) :=
  ⟨⟨rfl, rfl⟩, ⟨rfl, rfl⟩, ⟨rfl, rfl⟩, ⟨rfl, rfl⟩⟩

/-- Claim C10: the exceptions of the top-tagged variant's width setters carry
messages naming `Chi2Discriminator` (not `Chi2DiscriminatorTTAG`) while still
including the offending value. -/
theorem C10_ttag_messages_name_base_class (s : ℚ) (hs : s ≤ 0)
    (dt : Chi2DiscriminatorTTAG) :
    ((dt.set_Mtlep_sigma s).2 =
        some ("Chi2Discriminator::set_Mtlep_sigma" ++
          (" -- logic error: non-positive input value: " ++ toString s)) ∧
      ∃ pre : String, (dt.set_Mtlep_sigma s).2 = some (pre ++ toString s)) ∧
    ((dt.set_Mthad_sigma s).2 =
        some ("Chi2Discriminator::set_Mthad_sigma" ++
          (" -- logic error: non-positive input value: " ++ toString s)) ∧
      ∃ pre : String, (dt.set_Mthad_sigma s).2 = some (pre ++ toString s)) := by
  have h1 : ("Chi2Discriminator::set_Mtlep_sigma" : String) ++
      " -- logic error: non-positive input value: " =
      "Chi2Discriminator::set_Mtlep_sigma -- logic error: non-positive input value: " := by
    decide
  have h2 : ("Chi2Discriminator::set_Mthad_sigma" : String) ++
      " -- logic error: non-positive input value: " =
      "Chi2Discriminator::set_Mthad_sigma -- logic error: non-positive input value: " := by
    decide
  refine ⟨⟨?_, ?_⟩, ⟨?_, ?_⟩⟩
  · simp only [Chi2DiscriminatorTTAG.set_Mtlep_sigma, if_pos hs]
    rw [← String.append_assoc, h1]
  · exact ⟨"Chi2Discriminator::set_Mtlep_sigma -- logic error: non-positive input value: ",
      by simp only [Chi2DiscriminatorTTAG.set_Mtlep_sigma, if_pos hs]⟩
  · simp only [Chi2DiscriminatorTTAG.set_Mthad_sigma, if_pos hs]
    rw [← String.append_assoc, h2]
  · exact ⟨"Chi2Discriminator::set_Mthad_sigma -- logic error: non-positive input value: ",
      by simp only [Chi2DiscriminatorTTAG.set_Mthad_sigma, if_pos hs]⟩

theorem C10_witness :
    ((-1 : ℚ) ≤ 0) ∧
    (((chi2ttag0.set_Mtlep_sigma (-1)).2 =
        some ("Chi2Discriminator::set_Mtlep_sigma" ++
          (" -- logic error: non-positive input value: " ++ toString (-1 : ℚ))) ∧
      ∃ pre : String, (chi2ttag0.set_Mtlep_sigma (-1)).2 =
        some (pre ++ toString (-1 : ℚ))) ∧
     ((chi2ttag0.set_Mthad_sigma (-1)).2 =
        some ("Chi2Discriminator::set_Mthad_sigma" ++
          (" -- logic error: non-positive input value: " ++ toString (-1 : ℚ))) ∧
      ∃ pre : String, (chi2ttag0.set_Mthad_sigma (-1)).2 =
        some (pre ++ toString (-1 : ℚ)))) :=
  ⟨by norm_num, C10_ttag_messages_name_base_class (-1) (by norm_num) chi2ttag0⟩

/-- Claim C2: `get_best_hypothesis` returns none exactly when the collection
is empty or every record's score for the label is +infinity (equivalently,
the minimum score found is +infinity). -/
theorem C2_none_iff (hyps : List ReconstructionHypothesis) (label : String) :
    get_best_hypothesis hyps label = none ↔
      (hyps = [] ∨ ∀ h ∈ hyps, h.get_discriminator label = ⊤) := by
  cases hyps with
  | nil => simp [get_best_hypothesis]
  | cons h t =>
      simp only [get_best_hypothesis]
      constructor
      · intro hn
        by_cases htop : (scan_best label h t).get_discriminator label = ⊤
        · right
          intro x hx
          rcases List.mem_cons.mp hx with hxh | hxt
          · subst hxh
            exact top_le_iff.mp (htop ▸ scan_best_le_start label t x)
          · exact top_le_iff.mp (htop ▸ scan_best_le_mem label t h x hxt)
        · rw [if_neg htop] at hn
          exact Option.noConfusion hn
      · intro hall
        rcases hall with hnil | hall
        · exact absurd hnil (List.cons_ne_nil h t)
        · have htop : (scan_best label h t).get_discriminator label = ⊤ :=
            hall _ (scan_best_mem label t h)
          rw [if_pos htop]

theorem C2_witness :
    get_best_hypothesis
      [mkHyp [("CorrectMatch", ⊤)], mkHyp [("CorrectMatch", ⊤)],
        mkHyp [("CorrectMatch", ⊤)]] "CorrectMatch" = none :=
  (C2_none_iff _ "CorrectMatch").mpr (Or.inr (by decide))

theorem chi2_process_hyp_tlep (d : Chi2Discriminator)
    (h : ReconstructionHypothesis) :
    (d.process_hyp h).get_discriminator (d.discriminator_label ++ "_tlep") =
      ↑(((h.toplep_mass - d.Mtlep_mean_) / d.Mtlep_sigma_) ^ 2) := by
  have hne3 : d.discriminator_label ++ "_tlep" ≠ d.discriminator_label ++ "_thad" := by
    intro he
    have := string_append_right_inj d.discriminator_label he
    exact absurd this (by decide)
  simp only [Chi2Discriminator.process_hyp]
  rw [get_set_of_ne _ _ _ _ hne3, get_set_self]

theorem chi2_process_hyp_thad (d : Chi2Discriminator)
    (h : ReconstructionHypothesis) :
    (d.process_hyp h).get_discriminator (d.discriminator_label ++ "_thad") =
      ↑(((h.tophad_mass - d.Mthad_mean_) / d.Mthad_sigma_) ^ 2) := by
  simp only [Chi2Discriminator.process_hyp]
  rw [get_set_self]

theorem chi2_process_hyp_total (d : Chi2Discriminator)
    (h : ReconstructionHypothesis) :
    (d.process_hyp h).get_discriminator d.discriminator_label =
      ↑(((h.toplep_mass - d.Mtlep_mean_) / d.Mtlep_sigma_) ^ 2 +
        ((h.tophad_mass - d.Mthad_mean_) / d.Mthad_sigma_) ^ 2) := by
  have hne1 : d.discriminator_label ≠ d.discriminator_label ++ "_tlep" :=
    string_ne_append _ _ (by decide)
  have hne2 : d.discriminator_label ≠ d.discriminator_label ++ "_thad" :=
    string_ne_append _ _ (by decide)
  simp only [Chi2Discriminator.process_hyp]
  rw [get_set_of_ne _ _ _ _ hne2, get_set_of_ne _ _ _ _ hne1, get_set_self]

theorem chi2_process_hyp_other (d : Chi2Discriminator)
    (h : ReconstructionHypothesis) (l : String)
    (hl1 : l ≠ d.discriminator_label)
    (hl2 : l ≠ d.discriminator_label ++ "_tlep")
    (hl3 : l ≠ d.discriminator_label ++ "_thad") :
    (d.process_hyp h).get_discriminator l = h.get_discriminator l := by
  simp only [Chi2Discriminator.process_hyp]
  rw [get_set_of_ne _ _ _ _ hl3, get_set_of_ne _ _ _ _ hl2,
    get_set_of_ne _ _ _ _ hl1]

/-- Claim C3: the chi-square scorer writes exactly the three scores label,
label_tlep and label_thad (default label "Chi2"): the two legs carry the
squared normalized deviations, the total equals leg-sum exactly, and any
other label is left unchanged. -/
theorem C3_chi2_writes_three_scores (d : Chi2Discriminator)
    (h : ReconstructionHypothesis) (l : String)
    (hl1 : l ≠ d.discriminator_label)
    (hl2 : l ≠ d.discriminator_label ++ "_tlep")
    (hl3 : l ≠ d.discriminator_label ++ "_thad") :
    ((d.process_hyp h).get_discriminator (d.discriminator_label ++ "_tlep") =
      ↑(((h.toplep_mass - d.Mtlep_mean_) / d.Mtlep_sigma_) ^ 2)) ∧
    ((d.process_hyp h).get_discriminator (d.discriminator_label ++ "_thad") =
      ↑(((h.tophad_mass - d.Mthad_mean_) / d.Mthad_sigma_) ^ 2)) ∧
    ((d.process_hyp h).get_discriminator d.discriminator_label =
      (d.process_hyp h).get_discriminator (d.discriminator_label ++ "_tlep") +
        (d.process_hyp h).get_discriminator (d.discriminator_label ++ "_thad")) ∧
    (d.process_hyp h).get_discriminator l = h.get_discriminator l := by
  refine ⟨chi2_process_hyp_tlep d h, chi2_process_hyp_thad d h, ?_,
    chi2_process_hyp_other d h l hl1 hl2 hl3⟩
  rw [chi2_process_hyp_tlep d h, chi2_process_hyp_thad d h,
    chi2_process_hyp_total d h, ← WithTop.coe_add]

/-- The hypothesis record of the concrete chi-square scenario: leptonic-top
mass 172, hadronic-top mass 175. -/
def hyp7 : ReconstructionHypothesis := ⟨172, 175, ⟨0, 0⟩, ⟨0, 0⟩, [], []⟩

theorem C3_witness :
    ("TopDRMC" ≠ chi2disc0.discriminator_label ∧
     "TopDRMC" ≠ chi2disc0.discriminator_label ++ "_tlep" ∧
     "TopDRMC" ≠ chi2disc0.discriminator_label ++ "_thad") ∧
    (((chi2disc0.process_hyp hyp7).get_discriminator
        (chi2disc0.discriminator_label ++ "_tlep") =
      ↑(((hyp7.toplep_mass - chi2disc0.Mtlep_mean_) / chi2disc0.Mtlep_sigma_) ^ 2)) ∧
    ((chi2disc0.process_hyp hyp7).get_discriminator
        (chi2disc0.discriminator_label ++ "_thad") =
      ↑(((hyp7.tophad_mass - chi2disc0.Mthad_mean_) / chi2disc0.Mthad_sigma_) ^ 2)) ∧
    ((chi2disc0.process_hyp hyp7).get_discriminator chi2disc0.discriminator_label =
      (chi2disc0.process_hyp hyp7).get_discriminator
          (chi2disc0.discriminator_label ++ "_tlep") +
        (chi2disc0.process_hyp hyp7).get_discriminator
          (chi2disc0.discriminator_label ++ "_thad")) ∧
    (chi2disc0.process_hyp hyp7).get_discriminator "TopDRMC" =
      hyp7.get_discriminator "TopDRMC") :=
  ⟨⟨by decide, by decide, by decide⟩,
    C3_chi2_writes_three_scores chi2disc0 hyp7 "TopDRMC"
      (by decide) (by decide) (by decide)⟩

/-- Claim C7: on the hypothesis with Mtlep = 172 and Mthad = 175, scored with
priors 173 ± 15 (leptonic) and 173 ± 14 (hadronic), the chi-square scorer
yields chi2_tlep = 1/225 ≈ 0.00444, chi2_thad = 1/49 ≈ 0.02041 and
chi2_total = 274/11025 ≈ 0.02485, the exact sum. -/
theorem C7_concrete_chi2_values :
    (chi2disc0.process_hyp hyp7).get_discriminator "Chi2_tlep" = ↑((1 : ℚ) / 225) ∧
    (chi2disc0.process_hyp hyp7).get_discriminator "Chi2_thad" = ↑((1 : ℚ) / 49) ∧
    (chi2disc0.process_hyp hyp7).get_discriminator "Chi2" = ↑((274 : ℚ) / 11025) ∧
    (274 : ℚ) / 11025 = 1 / 225 + 1 / 49 ∧
    |(1 : ℚ) / 225 - 0.00444| < 1 / 100000 ∧
    |(1 : ℚ) / 49 - 0.02041| < 1 / 100000 ∧
    |(274 : ℚ) / 11025 - 0.02485| < 1 / 100000 := by
  have hs1 : chi2disc0.discriminator_label ++ "_tlep" = "Chi2_tlep" := by decide
  have hs2 : chi2disc0.discriminator_label ++ "_thad" = "Chi2_thad" := by decide
  have hs0 : chi2disc0.discriminator_label = "Chi2" := rfl
  have e1 := chi2_process_hyp_tlep chi2disc0 hyp7
  have e2 := chi2_process_hyp_thad chi2disc0 hyp7
  have e3 := chi2_process_hyp_total chi2disc0 hyp7
  rw [hs1] at e1
  rw [hs2] at e2
  rw [hs0] at e3
  refine ⟨?_, ?_, ?_, by norm_num, ?_, ?_, ?_⟩
  · rw [e1]
    exact_mod_cast
      (show ((hyp7.toplep_mass - chi2disc0.Mtlep_mean_) / chi2disc0.Mtlep_sigma_) ^ 2 =
        (1 : ℚ) / 225 by norm_num [hyp7, chi2disc0])
  · rw [e2]
    exact_mod_cast
      (show ((hyp7.tophad_mass - chi2disc0.Mthad_mean_) / chi2disc0.Mthad_sigma_) ^ 2 =
        (1 : ℚ) / 49 by norm_num [hyp7, chi2disc0])
  · rw [e3]
    exact_mod_cast
      (show ((hyp7.toplep_mass - chi2disc0.Mtlep_mean_) / chi2disc0.Mtlep_sigma_) ^ 2 +
          ((hyp7.tophad_mass - chi2disc0.Mthad_mean_) / chi2disc0.Mthad_sigma_) ^ 2 =
        (274 : ℚ) / 11025 by norm_num [hyp7, chi2disc0])
  · rw [abs_sub_lt_iff]
    constructor <;> norm_num
  · rw [abs_sub_lt_iff]
    constructor <;> norm_num
  · rw [abs_sub_lt_iff]
    constructor <;> norm_num

/-- Claim C1 (amended): on a non-empty collection containing at least one
record whose score under the label is not +infinity, `get_best_hypothesis`
returns the first record in collection order attaining the minimal score:
its score is ≤ every record's score, and every record occurring before it
scores strictly worse (so on exact ties the earlier record wins). -/
theorem C1_best_is_first_minimum (hyps : List ReconstructionHypothesis)
    (label : String) (hne : hyps ≠ [])
    (hfin : ∃ h0, h0 ∈ hyps ∧ h0.get_discriminator label ≠ ⊤) :
    ∃ r, get_best_hypothesis hyps label = some r ∧
      (∀ x ∈ hyps, r.get_discriminator label ≤ x.get_discriminator label) ∧
      ∃ l1 l2, hyps = l1 ++ r :: l2 ∧
        ∀ p ∈ l1, r.get_discriminator label < p.get_discriminator label := by
  cases hyps with
  | nil => exact absurd rfl hne
  | cons h t =>
      obtain ⟨h0, h0mem, h0fin⟩ := hfin
      have hle : ∀ x ∈ h :: t, (scan_best label h t).get_discriminator label ≤
          x.get_discriminator label := by
        intro x hx
        rcases List.mem_cons.mp hx with hxh | hxt
        · subst hxh
          exact scan_best_le_start label t x
        · exact scan_best_le_mem label t h x hxt
      have hnottop : (scan_best label h t).get_discriminator label ≠ ⊤ := by
        intro htop
        exact h0fin (top_le_iff.mp (htop ▸ hle h0 h0mem))
      refine ⟨scan_best label h t, ?_, hle, scan_best_split label t h⟩
      simp only [get_best_hypothesis]
      rw [if_neg hnottop]

/-- Claim C1 as stated is false: this one-element collection is non-empty,
yet `get_best_hypothesis` returns no record at all, because the only score
under "Chi2" is +infinity. -/
theorem C1_counterexample :
    ([mkHyp [("Chi2", ⊤)]] : List ReconstructionHypothesis) ≠ [] ∧
    ∀ r : ReconstructionHypothesis,
      ¬ get_best_hypothesis [mkHyp [("Chi2", ⊤)]] "Chi2" = some r := by
  constructor
  · decide
  · intro r hr
    have hnone : get_best_hypothesis [mkHyp [("Chi2", ⊤)]] "Chi2" = none := by
      decide
    rw [hnone] at hr
    exact Option.noConfusion hr

/-- Two equal-score hypotheses, distinguishable by their leptonic-top mass. -/
def hypA : ReconstructionHypothesis := ⟨0, 0, ⟨0, 0⟩, ⟨0, 0⟩, [], [("Chi2", ↑((1 : ℚ) / 2))]⟩

def hypB : ReconstructionHypothesis := ⟨1, 0, ⟨0, 0⟩, ⟨0, 0⟩, [], [("Chi2", ↑((1 : ℚ) / 2))]⟩

theorem C1_witness :
    (([hypA, hypB] : List ReconstructionHypothesis) ≠ [] ∧
      ∃ h0, h0 ∈ [hypA, hypB] ∧ h0.get_discriminator "Chi2" ≠ ⊤) ∧
    ∃ r, get_best_hypothesis [hypA, hypB] "Chi2" = some r ∧
      (∀ x ∈ [hypA, hypB],
        r.get_discriminator "Chi2" ≤ x.get_discriminator "Chi2") ∧
      ∃ l1 l2, [hypA, hypB] = l1 ++ r :: l2 ∧
        ∀ p ∈ l1, r.get_discriminator "Chi2" < p.get_discriminator "Chi2" :=
  ⟨⟨List.cons_ne_nil hypA [hypB],
      ⟨hypA, List.mem_cons_self hypA [hypB],
        by simp [hypA, ReconstructionHypothesis.get_discriminator, lookup_disc]⟩⟩,
    C1_best_is_first_minimum [hypA, hypB] "Chi2" (List.cons_ne_nil hypA [hypB])
      ⟨hypA, List.mem_cons_self hypA [hypB],
        by simp [hypA, ReconstructionHypothesis.get_discriminator, lookup_disc]⟩⟩

theorem correct_match_score_eq_top_of_none
    (dr : GenParticle → GenParticle → ℚ) (gen : TTbarGen)
    (h : ReconstructionHypothesis)
    (hn : match_parton dr h.jets gen.bottom = none ∨
      match_parton dr h.jets gen.antibottom = none ∨
      match_parton dr h.jets gen.Wquark1 = none ∨
      match_parton dr h.jets gen.Wquark2 = none) :
    correct_match_score dr gen h = ⊤ := by
  rcases hb : match_parton dr h.jets gen.bottom with _ | d1 <;>
    rcases hbb : match_parton dr h.jets gen.antibottom with _ | d2 <;>
      rcases hq1 : match_parton dr h.jets gen.Wquark1 with _ | d3 <;>
        rcases hq2 : match_parton dr h.jets gen.Wquark2 with _ | d4 <;>
          simp_all [correct_match_score]

/-- Claim C5: when the truth decay channel is neither electron+jets nor
muon+jets, the truth-match scorer writes +infinity into every hypothesis and
performs no matching: the output is literally the map that sets the label to
+infinity, independent of the distance function, the partons and all
reconstructed content (in particular, the reconstructed lepton is never
consulted). -/
theorem C5_wrong_channel_all_infinite (dr : GenParticle → GenParticle → ℚ)
    (gen : TTbarGen) (label : String) (hyps : List ReconstructionHypothesis)
    (hch : gen.channel ≠ DecayChannel.e_ehad ∧
      gen.channel ≠ DecayChannel.e_muhad) :
    CorrectMatchDiscriminator.process dr gen label hyps =
      hyps.map (fun h => h.set_discriminator label ⊤) ∧
    ∀ h2 ∈ CorrectMatchDiscriminator.process dr gen label hyps,
      h2.get_discriminator label = ⊤ := by
  obtain ⟨h1, h2⟩ := hch
  have hsl : semileptonic gen.channel = false := by
    cases hgc : gen.channel
    · exact absurd hgc h1
    · exact absurd hgc h2
    · rfl
    · rfl
    · rfl
    · rfl
  have hproc : CorrectMatchDiscriminator.process dr gen label hyps =
      hyps.map (fun h => h.set_discriminator label ⊤) := by
    simp [CorrectMatchDiscriminator.process, hsl]
  refine ⟨hproc, ?_⟩
  intro h2 hmem
  rw [hproc] at hmem
  obtain ⟨h0, _, he⟩ := List.mem_map.mp hmem
  rw [← he]
  exact get_set_self h0 label ⊤

/-- The truth record of the concrete non-semileptonic scenario (tau+jets). -/
def genTau : TTbarGen :=
  ⟨DecayChannel.e_tauhad, ⟨0, 0⟩, ⟨0, 0⟩, ⟨0, 0⟩, ⟨0, 0⟩, ⟨0, 0⟩⟩

theorem C5_witness :
    (genTau.channel ≠ DecayChannel.e_ehad ∧
      genTau.channel ≠ DecayChannel.e_muhad) ∧
    (CorrectMatchDiscriminator.process deltaR_sq genTau "CorrectMatch"
        [mkHyp []] =
      [mkHyp []].map (fun h => h.set_discriminator "CorrectMatch" ⊤) ∧
    ∀ h2 ∈ CorrectMatchDiscriminator.process deltaR_sq genTau "CorrectMatch"
        [mkHyp []],
      h2.get_discriminator "CorrectMatch" = ⊤) :=
  ⟨⟨by decide, by decide⟩,
    C5_wrong_channel_all_infinite deltaR_sq genTau "CorrectMatch" [mkHyp []]
      ⟨by decide, by decide⟩⟩

/-- Claim C6: in a semileptonic (electron+jets or muon+jets) event, each
hypothesis's "CorrectMatch"-style score is written by the scorer; when all
four matrix-element partons have a matched jet the score is the sum of the
four match distances plus the (uncut) true-to-reconstructed neutrino
distance; if any one parton has no jet within distance < 3/10 the score is
+infinity regardless of the other three; and a parton matches exactly when
some jet of the hypothesis lies within distance < 3/10. -/
theorem C6_semileptonic_truth_match (dr : GenParticle → GenParticle → ℚ)
    (gen : TTbarGen) (label : String) (hyps : List ReconstructionHypothesis)
    (h : ReconstructionHypothesis)
    (hch : gen.channel = DecayChannel.e_ehad ∨
      gen.channel = DecayChannel.e_muhad)
    (hmem : h ∈ hyps) :
    h.set_discriminator label (correct_match_score dr gen h) ∈
      CorrectMatchDiscriminator.process dr gen label hyps ∧
    (h.set_discriminator label
        (correct_match_score dr gen h)).get_discriminator label =
      correct_match_score dr gen h ∧
    (∀ d1 d2 d3 d4 : ℚ,
      match_parton dr h.jets gen.bottom = some d1 →
      match_parton dr h.jets gen.antibottom = some d2 →
      match_parton dr h.jets gen.Wquark1 = some d3 →
      match_parton dr h.jets gen.Wquark2 = some d4 →
      correct_match_score dr gen h =
        ↑(d1 + d2 + d3 + d4 + dr gen.neutrino h.neutrino)) ∧
    (∀ p ∈ [gen.bottom, gen.antibottom, gen.Wquark1, gen.Wquark2],
      (∀ j ∈ h.jets, ¬ dr p j < 3 / 10) →
      correct_match_score dr gen h = ⊤) ∧
    (∀ p : GenParticle, (match_parton dr h.jets p).isSome = true ↔
      ∃ j ∈ h.jets, dr p j < 3 / 10) := by
  have hsl : semileptonic gen.channel = true := by
    rcases hch with hgc | hgc <;> rw [hgc] <;> rfl
  refine ⟨?_, get_set_self h label _, ?_, ?_,
    fun p => match_parton_isSome_iff dr h.jets p⟩
  · simp only [CorrectMatchDiscriminator.process, hsl, if_true]
    exact List.mem_map_of_mem _ hmem
  · intro d1 d2 d3 d4 e1 e2 e3 e4
    simp only [correct_match_score, e1, e2, e3, e4]
  · intro p hp hfar
    have hnone := match_parton_none_of_far dr h.jets p hfar
    have hp4 : p = gen.bottom ∨ p = gen.antibottom ∨ p = gen.Wquark1 ∨
        p = gen.Wquark2 := by
      simpa using hp
    rcases hp4 with rfl | rfl | rfl | rfl
    · exact correct_match_score_eq_top_of_none dr gen h (Or.inl hnone)
    · exact correct_match_score_eq_top_of_none dr gen h (Or.inr (Or.inl hnone))
    · exact correct_match_score_eq_top_of_none dr gen h
        (Or.inr (Or.inr (Or.inl hnone)))
    · exact correct_match_score_eq_top_of_none dr gen h
        (Or.inr (Or.inr (Or.inr hnone)))

/-- The truth record of the concrete electron+jets scenario. -/
def genE : TTbarGen :=
  ⟨DecayChannel.e_ehad, ⟨0, 0⟩, ⟨0, 0⟩, ⟨0, 0⟩, ⟨0, 0⟩, ⟨0, 0⟩⟩

/-- A hypothesis with a single jet at the origin of the
azimuth–pseudorapidity plane. -/
def hyp6 : ReconstructionHypothesis := ⟨0, 0, ⟨0, 0⟩, ⟨0, 0⟩, [⟨0, 0⟩], []⟩

theorem C6_witness :
    (genE.channel = DecayChannel.e_ehad ∨
      genE.channel = DecayChannel.e_muhad) ∧
    hyp6 ∈ [hyp6] ∧
    (hyp6.set_discriminator "CorrectMatch"
        (correct_match_score deltaR_sq genE hyp6) ∈
      CorrectMatchDiscriminator.process deltaR_sq genE "CorrectMatch" [hyp6] ∧
    (hyp6.set_discriminator "CorrectMatch"
        (correct_match_score deltaR_sq genE hyp6)).get_discriminator
          "CorrectMatch" =
      correct_match_score deltaR_sq genE hyp6 ∧
    (∀ d1 d2 d3 d4 : ℚ,
      match_parton deltaR_sq hyp6.jets genE.bottom = some d1 →
      match_parton deltaR_sq hyp6.jets genE.antibottom = some d2 →
      match_parton deltaR_sq hyp6.jets genE.Wquark1 = some d3 →
      match_parton deltaR_sq hyp6.jets genE.Wquark2 = some d4 →
      correct_match_score deltaR_sq genE hyp6 =
        ↑(d1 + d2 + d3 + d4 + deltaR_sq genE.neutrino hyp6.neutrino)) ∧
    (∀ p ∈ [genE.bottom, genE.antibottom, genE.Wquark1, genE.Wquark2],
      (∀ j ∈ hyp6.jets, ¬ deltaR_sq p j < 3 / 10) →
      correct_match_score deltaR_sq genE hyp6 = ⊤) ∧
    (∀ p : GenParticle, (match_parton deltaR_sq hyp6.jets p).isSome = true ↔
      ∃ j ∈ hyp6.jets, deltaR_sq p j < 3 / 10)) :=
  ⟨Or.inl rfl, List.mem_cons_self hyp6 [],
    C6_semileptonic_truth_match deltaR_sq genE "CorrectMatch" [hyp6] hyp6
      (Or.inl rfl) (List.mem_cons_self hyp6 [])⟩
